import Mathlib

/-!
Formal model of the gapp library (app.go and middleware.go): a lifecycle
orchestrator over an HTTP server stack plus negroni middlewares.
External collaborators (gorilla/mux, urfave/negroni, stretchr/graceful,
NYTimes/gziphandler) are modelled only through the values the library
passes to them; panics are modelled as `Except.error` outcomes carrying
the panic value (as a string), and the goroutines started by `Run` are
modelled by an interleaving step relation.
-/

namespace Gapp

/-! ## Middleware models (middleware.go) -/

/-- Model of a Go `func(rw http.ResponseWriter, r *http.Request)` used as the
recovery callback of `RecoveryMiddleware`: the flag records whether the
function's body calls `recover()` when it runs deferred during a panic (in Go,
only such a call stops the panic from propagating further). -/
structure RecoveryCallback where
  callsRecover : Bool
deriving DecidableEq, Repr

/-- Events observable from `recoveryMiddleware.ServeHTTP`: the call of the
next handler, and the invocation of the supplied recovery callback with the
response writer and request (identified by numbers), together with the panic
value that `recover()` would see at that moment (`none` when the goroutine is
not panicking). -/
inductive RecEv where
  | nextCall (rw r : Nat)
  | recoverFuncCall (rw r : Nat) (panicking : Option String)
deriving DecidableEq, Repr

/-- Model of `recoveryMiddleware.ServeHTTP` (middleware.go lines 45-51).
`next = .ok ()` models a normal return of the next handler and `next =
.error p` a panic with value `p` raised during it.  Go semantics of
`defer rec.recoverFunc(rw, r)`: the deferred call runs on every exit from the
frame, normal or panicking, and a panic keeps propagating after the deferred
call returns unless that call itself recovers it. -/
def recoveryServeHTTP (recoverFunc : Option RecoveryCallback) (rw r : Nat)
    (next : Except String Unit) : List RecEv × Except String Unit :=
  match recoverFunc with
  | none => ([RecEv.nextCall rw r], next)
  | some f =>
    match next with
    | .ok () => ([RecEv.nextCall rw r, RecEv.recoverFuncCall rw r none], .ok ())
    | .error p =>
      ([RecEv.nextCall rw r, RecEv.recoverFuncCall rw r (some p)],
        if f.callsRecover then .ok () else .error p)

/-- Events observable from `loggingMiddleware.ServeHTTP`: the pre-call logging
callback with its arguments, the call of the next handler, and the post-call
logging callback with its arguments. -/
inductive LogEv where
  | preLog (method path : String) (start : Int)
  | nextCall
  | postLog (method path : String) (status : Int) (dur : Int)
deriving DecidableEq, Repr

/-- Recognizer for post-call logging events. -/
def isPostEv : LogEv → Bool
  | LogEv.postLog _ _ _ _ => true
  | _ => false

/-- Model of `loggingMiddleware.ServeHTTP` (middleware.go lines 53-69).
`hasPre` and `hasPost` model the nil checks on `preLogFunc` and `postLogFunc`;
`rwStatus` models the type assertion `rw.(negroni.ResponseWriter)`: `some s`
when the assertion succeeds and `Status()` returns `s`, `none` when it fails;
`t0` is the value `time.Now()` yields at entry (stored in `start`) and `t1`
the value the clock has when `time.Since(start)` is evaluated after `next`
returns, so the reported duration is `t1 - t0`; `next = .error p` models a
panic in the next handler, which skips the post-call logging (the function
uses no defer). -/
def loggingServeHTTP (hasPre hasPost : Bool) (method path : String)
    (rwStatus : Option Int) (t0 t1 : Int) (next : Except String Unit) :
    List LogEv × Except String Unit :=
  let preTr := if hasPre then [LogEv.preLog method path t0] else []
  match next with
  | .error p => (preTr ++ [LogEv.nextCall], .error p)
  | .ok () =>
    let postTr :=
      if hasPost then
        match rwStatus with
        | some s => [LogEv.postLog method path s (t1 - t0)]
        | none => [LogEv.postLog method path 0 (t1 - t0)]
      else []
    (preTr ++ [LogEv.nextCall] ++ postTr, .ok ())

/-! ## Data model of app.go -/

/-- `ServerConfig` (app.go lines 21-30); `time.Duration` values are modelled
as `Int` (nanosecond counts). -/
structure ServerConfig where
  Host : String
  Port : Int
  GracefulTimeout : Int
  ReadTimeout : Int
  WriteTimeout : Int
  TLSPort : Int
  TLSCertFile : String
  TLSPrivateKeyFile : String
deriving DecidableEq, Repr

/-- Handler functions are opaque to the orchestrator; they are modelled by
numeric identifiers. -/
abbrev HandlerId := Nat

/-- `HandlerMapping` (app.go lines 15-18). -/
structure HandlerMapping where
  Route : String
  Handler : HandlerId
deriving DecidableEq, Repr

/-- Model of `*mux.Router`: the route table the app registers into; its
routing behaviour is external and not modelled. -/
structure Router where
  routes : List HandlerMapping
deriving DecidableEq, Repr

/-- Model of `mux.NewRouter()`: a fresh, empty router. -/
def muxNewRouter : Router := ⟨[]⟩

/-- Negroni middleware units (`negroni.Handler` values) are opaque to the
orchestrator; they are modelled by numeric identifiers. -/
abbrev NegroniHandler := Nat

/-- Modelled from the spec: the middleware-chain builder (urfave/negroni,
external, not under src/) "accepts an ordered list of middleware units plus a
final handler"; `negroni.New(hs...)` stores the ordered list and
`UseHandler(r)` installs the final handler. -/
structure Negroni where
  handlers : List NegroniHandler
  finalHandler : Option Router
deriving DecidableEq, Repr

/-- Model of `negroni.New(hs...)`. -/
def negroniNew (hs : List NegroniHandler) : Negroni := ⟨hs, none⟩

/-- Model of `(*negroni.Negroni).UseHandler(r)`. -/
def Negroni.UseHandler (n : Negroni) (r : Router) : Negroni := ⟨n.handlers, some r⟩

/-- A composed request handler: middleware units wrapping an innermost
router. -/
inductive ComposedHandler where
  | routerH (r : Router)
  | wrap (unit : NegroniHandler) (inner : ComposedHandler)
deriving DecidableEq, Repr

/-- Modelled from the spec: the middleware-chain builder (urfave/negroni,
external, not under src/) "produces one composed handler" with the units
"wrapping the router, in the order supplied (first supplied = outermost)";
a missing final handler composes to an empty router. -/
def Negroni.compose (n : Negroni) : ComposedHandler :=
  n.handlers.foldr (fun u inner => ComposedHandler.wrap u inner)
    (ComposedHandler.routerH (n.finalHandler.getD muxNewRouter))

/-- Model of a `Gapp` implementation (the callback interface, app.go lines
33-50).  `Config` is the app-defined configuration type.  Each callback
returns `.error p` to model a panic with value `p` and `.ok` for a normal
return; `ConfigureRoutes` mutates the router it is handed, modelled
functionally by returning the updated router. -/
structure GappM (Config : Type) where
  LoadConfig : Except String Config
  ConfigureLogging : Config → Except String Unit
  InitResources : Config → Except String Unit
  ConfigureRoutes : Router → Config → Except String Router
  SetMiddleware : Config → Except String (List NegroniHandler)
  GetServerConf : Config → Except String ServerConfig
  HandleStart : String → Int → Int → Except String Unit

/-- The values `Run` hands to `graceful.Server` and its embedded
`http.Server` for one listener goroutine (app.go lines 70-79 and 89-98):
the graceful-shutdown `Timeout`, `Addr`, `Handler`, `WriteTimeout` and
`ReadTimeout`. -/
structure Server where
  Timeout : Int
  Addr : String
  Handler : Negroni
  WriteTimeout : Int
  ReadTimeout : Int
deriving DecidableEq, Repr

/-- Observable events of a run: one per lifecycle-callback invocation (with
the arguments passed to it), one per listener-goroutine start (with the
server values handed to the listener and, for TLS, the cert/key file pair),
one per listener-goroutine exit, and the `HandleStopped` invocation. -/
inductive Ev (Config : Type) where
  | loadConfig
  | configureLogging (conf : Config)
  | initResources (conf : Config)
  | configureRoutes (conf : Config)
  | setMiddleware (conf : Config)
  | getServerConf (conf : Config)
  | handleStart (host : String) (port tlsPort : Int)
  | listenerStarted (id : Nat) (srv : Server) (tlsFiles : Option (String × String))
  | listenerExited (id : Nat)
  | handleStopped
deriving DecidableEq, Repr

/-- Recognizer for the `HandleStopped` event. -/
def isStoppedEv {Config : Type} : Ev Config → Bool
  | Ev.handleStopped => true
  | _ => false

/-- No listener-goroutine start event occurs in the trace. -/
def noListenerStartedIn {Config : Type} (tr : List (Ev Config)) : Prop :=
  ∀ (i : Nat) (srv : Server) (tf : Option (String × String)),
    Ev.listenerStarted i srv tf ∉ tr

/-- Model of `strconv.Itoa`. -/
def itoa (i : Int) : String := toString i

/-! ## Model of app.go -/

/-- Model of `initApp` (app.go lines 110-124): the trace of callback
invocations together with the result; an `.error` result is a panic raised in
one of the callbacks, which propagates (the remaining statements do not
run). -/
def initApp {Config : Type} (app : GappM Config) :
    List (Ev Config) × Except String (Config × Negroni) :=
  match app.LoadConfig with
  | .error p => ([Ev.loadConfig], .error p)
  | .ok config =>
    match app.ConfigureLogging config with
    | .error p => ([Ev.loadConfig, Ev.configureLogging config], .error p)
    | .ok _ =>
      match app.InitResources config with
      | .error p =>
        ([Ev.loadConfig, Ev.configureLogging config, Ev.initResources config],
          .error p)
      | .ok _ =>
        match app.ConfigureRoutes muxNewRouter config with
        | .error p =>
          ([Ev.loadConfig, Ev.configureLogging config, Ev.initResources config,
            Ev.configureRoutes config], .error p)
        | .ok r =>
          match app.SetMiddleware config with
          | .error p =>
            ([Ev.loadConfig, Ev.configureLogging config, Ev.initResources config,
              Ev.configureRoutes config, Ev.setMiddleware config], .error p)
          | .ok mws =>
            ([Ev.loadConfig, Ev.configureLogging config, Ev.initResources config,
              Ev.configureRoutes config, Ev.setMiddleware config],
              .ok (config, (negroniNew mws).UseHandler r))

/-- The panic value of app.go line 60. -/
def noPortsMsg : String :=
  "No ports specified. Must accept at least one scheme (HTTP and/or HTTPS)."

/-- The listener goroutines `Run` starts for a server config (app.go lines
65-101): id 0 is the plain-HTTP goroutine, started iff `Port > 0` with
address `Host:Port` and `ListenAndServe()` (no TLS files); id 1 is the TLS
goroutine, started iff `TLSPort > 0` with address `Host:TLSPort` and
`ListenAndServeTLS(TLSCertFile, TLSPrivateKeyFile)`.  Both hand the shared
handler `n` and the configured timeouts to `graceful.Server`. -/
def listenersOf (sc : ServerConfig) (n : Negroni) :
    List (Nat × Server × Option (String × String)) :=
  (if sc.Port > 0 then
    [(0, ⟨sc.GracefulTimeout, sc.Host ++ ":" ++ itoa sc.Port, n,
          sc.WriteTimeout, sc.ReadTimeout⟩, none)]
   else []) ++
  (if sc.TLSPort > 0 then
    [(1, ⟨sc.GracefulTimeout, sc.Host ++ ":" ++ itoa sc.TLSPort, n,
          sc.WriteTimeout, sc.ReadTimeout⟩,
       some (sc.TLSCertFile, sc.TLSPrivateKeyFile))]
   else [])

/-- Outcome of the sequential part of `Run`: either a panic value that
propagates out of `Run`, or the server config, shared handler and started
listener goroutines at the point where the main goroutine blocks in
`wg.Wait()`. -/
inductive StartResult (Config : Type) where
  | panicked (p : String)
  | listening (serverConfig : ServerConfig) (n : Negroni)
      (listeners : List (Nat × Server × Option (String × String)))

/-- Model of the sequential part of `Run` (app.go lines 53-101): the calls of
`initApp`, `GetServerConf` and `HandleStart`, the no-ports check, and the
starts of the listener goroutines, together with the trace of events up to
the point where the main goroutine blocks in `wg.Wait()` (or the panic
propagates). -/
def runStart {Config : Type} (app : GappM Config) :
    List (Ev Config) × StartResult Config :=
  match initApp app with
  | (tr, .error p) => (tr, StartResult.panicked p)
  | (tr, .ok (config, n)) =>
    match app.GetServerConf config with
    | .error p => (tr ++ [Ev.getServerConf config], StartResult.panicked p)
    | .ok serverConfig =>
      match app.HandleStart serverConfig.Host serverConfig.Port
          serverConfig.TLSPort with
      | .error p =>
        (tr ++ [Ev.getServerConf config,
          Ev.handleStart serverConfig.Host serverConfig.Port serverConfig.TLSPort],
          StartResult.panicked p)
      | .ok _ =>
        if serverConfig.Port ≤ 0 ∧ serverConfig.TLSPort ≤ 0 then
          (tr ++ [Ev.getServerConf config,
            Ev.handleStart serverConfig.Host serverConfig.Port serverConfig.TLSPort],
            StartResult.panicked noPortsMsg)
        else
          (tr ++ [Ev.getServerConf config,
            Ev.handleStart serverConfig.Host serverConfig.Port serverConfig.TLSPort]
            ++ (listenersOf serverConfig n).map
                (fun l => Ev.listenerStarted l.1 l.2.1 l.2.2),
            StartResult.listening serverConfig n (listenersOf serverConfig n))

/-- State of the concurrent phase of `Run`: the ids of the listener
goroutines still running, whether the main goroutine has passed `wg.Wait()`
and invoked `HandleStopped`, and the events emitted in this phase so far. -/
structure ConcState (Config : Type) where
  running : List Nat
  stopped : Bool
  trace : List (Ev Config)

/-- Interleaving semantics of the concurrent phase of `Run` (app.go lines
63-105): a running listener goroutine may finish serving and exit (its
deferred `wg.Done()`), and the main goroutine, once every started goroutine
has exited so that `wg.Wait()` returns, invokes `app.HandleStopped()` once,
after which `Run` returns. -/
inductive ConcStep {Config : Type} : ConcState Config → ConcState Config → Prop where
  | listenerExit (s : ConcState Config) (i : Nat) (h : i ∈ s.running) :
      ConcStep s ⟨s.running.erase i, s.stopped, s.trace ++ [Ev.listenerExited i]⟩
  | waitDone (s : ConcState Config) (h : s.running = []) (h2 : s.stopped = false) :
      ConcStep s ⟨[], true, s.trace ++ [Ev.handleStopped]⟩

/-- The concurrent phase starts with every started listener goroutine
running, `HandleStopped` not yet invoked, and no events yet. -/
def initConc {Config : Type}
    (ls : List (Nat × Server × Option (String × String))) : ConcState Config :=
  ⟨ls.map Prod.fst, false, []⟩

/-- Observable outcome of a whole call of `Run`: either a panic propagates
out of `Run` (with the trace up to that point), or `Run` returns normally
(with the full trace of the run). -/
inductive RunObs (Config : Type) where
  | panicked (trace : List (Ev Config)) (p : String)
  | completed (trace : List (Ev Config))

/-- Model of `Run` (app.go lines 53-106) as a relation between an app and the
observable outcomes of running it: after the sequential part, either the
panic propagates, or some interleaving of the listener goroutines runs until
all have exited and `HandleStopped` has been invoked, and `Run` returns. -/
def Run {Config : Type} (app : GappM Config) (o : RunObs Config) : Prop :=
  match runStart app with
  | (tr, StartResult.panicked p) => o = RunObs.panicked tr p
  | (tr, StartResult.listening _ _ ls) =>
    ∃ s : ConcState Config, Relation.ReflTransGen ConcStep (initConc ls) s ∧
      s.stopped = true ∧ o = RunObs.completed (tr ++ s.trace)

/-! ## The package-level variable doRunFunc (app.go line 108) -/

/-- The type of `graceful.Run` (the value stored in `doRunFunc`). -/
def RunFunc : Type := String → Int → Negroni → Unit

/-- Model of `graceful.Run` (external); nothing in the package reads the
variable holding it, so a no-op value suffices. -/
def gracefulRun : RunFunc := fun _ _ _ => ()

/-- The package-level mutable variables of app.go: only `doRunFunc`
(line 108). -/
structure PackageVars where
  doRunFunc : RunFunc

/-- Model of `Run` with the package-level variable state in scope, exactly as
in the Go package: the body of `Run` (app.go lines 53-106) never mentions
`doRunFunc`, so the variable state is unused. -/
def RunWithVars {Config : Type} (_vars : PackageVars) (app : GappM Config)
    (o : RunObs Config) : Prop :=
  Run app o

/-- Model of `initApp` with the package-level variable state in scope; its
body (app.go lines 110-124) never mentions `doRunFunc`. -/
def initAppWithVars {Config : Type} (_vars : PackageVars) (app : GappM Config) :
    List (Ev Config) × Except String (Config × Negroni) :=
  initApp app

/-- Model of `recoveryMiddleware.ServeHTTP` with the package-level variable
state in scope; its body (middleware.go lines 45-51) never mentions
`doRunFunc`. -/
def recoveryServeHTTPWithVars (_vars : PackageVars)
    (recoverFunc : Option RecoveryCallback) (rw r : Nat)
    (next : Except String Unit) : List RecEv × Except String Unit :=
  recoveryServeHTTP recoverFunc rw r next

/-- Model of `loggingMiddleware.ServeHTTP` with the package-level variable
state in scope; its body (middleware.go lines 53-69) never mentions
`doRunFunc`. -/
def loggingServeHTTPWithVars (_vars : PackageVars) (hasPre hasPost : Bool)
    (method path : String) (rwStatus : Option Int) (t0 t1 : Int)
    (next : Except String Unit) : List LogEv × Except String Unit :=
  loggingServeHTTP hasPre hasPost method path rwStatus t0 t1 next

/-! ## Concrete apps used as witnesses -/

/-- A server config with both a plain and a TLS port. -/
def confBoth : ServerConfig :=
  ⟨"localhost", 8080, 5, 10, 15, 8443, "cert.pem", "key.pem"⟩

/-- A server config with only the plain port. -/
def confHttp : ServerConfig := ⟨"localhost", 8080, 5, 10, 15, 0, "", ""⟩

/-- A server config with neither port positive. -/
def confNoPorts : ServerConfig := ⟨"localhost", 0, 5, 10, 15, 0, "", ""⟩

/-- A concrete app (over `Config := Nat`) whose callbacks all return
normally, registering one route and two middleware units and serving the
given server config. -/
def okApp (sc : ServerConfig) : GappM Nat :=
  { LoadConfig := .ok 42
    ConfigureLogging := fun _ => .ok ()
    InitResources := fun _ => .ok ()
    ConfigureRoutes := fun r _ => .ok ⟨⟨"/", 1⟩ :: r.routes⟩
    SetMiddleware := fun _ => .ok [10, 20]
    GetServerConf := fun _ => .ok sc
    HandleStart := fun _ _ _ => .ok () }

/-- A concrete app whose `LoadConfig` panics. -/
def errAppLoad : GappM Nat := { okApp confBoth with LoadConfig := .error "boom" }

/-- A concrete app whose `ConfigureLogging` panics. -/
def errAppCL : GappM Nat :=
  { okApp confBoth with ConfigureLogging := fun _ => .error "boom" }

/-- A concrete app whose `InitResources` panics. -/
def errAppIR : GappM Nat :=
  { okApp confBoth with InitResources := fun _ => .error "boom" }

/-- A concrete app whose `ConfigureRoutes` panics. -/
def errAppCR : GappM Nat :=
  { okApp confBoth with ConfigureRoutes := fun _ _ => .error "boom" }

/-- A concrete app whose `SetMiddleware` panics. -/
def errAppSM : GappM Nat :=
  { okApp confBoth with SetMiddleware := fun _ => .error "boom" }

/-- A concrete app whose `GetServerConf` panics. -/
def errAppGSC : GappM Nat :=
  { okApp confBoth with GetServerConf := fun _ => .error "boom" }

/-- The handler `okApp` leads `initApp` to build. -/
def nW : Negroni := ⟨[10, 20], some ⟨[⟨"/", 1⟩]⟩⟩

/-- The server values the plain listener of `okApp confHttp` receives. -/
def srvW : Server := ⟨5, "localhost:8080", nW, 15, 10⟩

/-- The trace of the sequential part of `Run (okApp confHttp)`. -/
def trW : List (Ev Nat) :=
  [Ev.loadConfig, Ev.configureLogging 42, Ev.initResources 42,
    Ev.configureRoutes 42, Ev.setMiddleware 42, Ev.getServerConf 42,
    Ev.handleStart "localhost" 8080 0, Ev.listenerStarted 0 srvW none]

/-- The full trace of one completed run of `Run (okApp confHttp)`. -/
def fullW : List (Ev Nat) := trW ++ [Ev.listenerExited 0, Ev.handleStopped]

/-- Events that the concurrent phase of `Run` can emit: listener exits and
the `HandleStopped` invocation. -/
def isConcEv {Config : Type} (e : Ev Config) : Prop :=
  (∃ i, e = Ev.listenerExited i) ∨ e = Ev.handleStopped

/-- Invariant of the concurrent phase of `Run`, relative to the ids `R` of
the listener goroutines that were started: the phase only emits
listener-exit and `HandleStopped` events; while `HandleStopped` has not been
invoked there is no such event in the trace and every started goroutine is
either still running or has its exit event in the trace; once it has been
invoked, no goroutine is running, the `HandleStopped` event is the last event
and occurs exactly once, and every started goroutine's exit event precedes
it. -/
def ConcInv {Config : Type} (R : List Nat) (s : ConcState Config) : Prop :=
  (∀ e ∈ s.trace, isConcEv e) ∧
  ((s.stopped = false ∧ s.trace.countP isStoppedEv = 0 ∧
      ∀ i ∈ R, i ∈ s.running ∨ Ev.listenerExited i ∈ s.trace) ∨
    (s.stopped = true ∧ s.running = [] ∧
      ∃ t, s.trace = t ++ [Ev.handleStopped] ∧ t.countP isStoppedEv = 0 ∧
        ∀ i ∈ R, Ev.listenerExited i ∈ t))

/-! ## Helper lemmas about initApp and runStart -/

theorem initApp_ok {Config : Type} {app : GappM Config} {c : Config} {r : Router}
    {mws : List NegroniHandler}
    (h1 : app.LoadConfig = .ok c) (h2 : app.ConfigureLogging c = .ok ())
    (h3 : app.InitResources c = .ok ())
    (h4 : app.ConfigureRoutes muxNewRouter c = .ok r)
    (h5 : app.SetMiddleware c = .ok mws) :
    initApp app =
      ([Ev.loadConfig, Ev.configureLogging c, Ev.initResources c,
        Ev.configureRoutes c, Ev.setMiddleware c],
        Except.ok (c, (⟨mws, some r⟩ : Negroni))) := by
  simp only [initApp, h1, h2, h3, h4, h5, negroniNew, Negroni.UseHandler]

theorem runStart_of_initApp_err {Config : Type} {app : GappM Config}
    {tr : List (Ev Config)} {p : String} (h : initApp app = (tr, .error p)) :
    runStart app = (tr, StartResult.panicked p) := by
  unfold runStart
  rw [h]

theorem runStart_getServerConf_err {Config : Type} {app : GappM Config}
    {tr : List (Ev Config)} {c : Config} {n : Negroni} {p : String}
    (hinit : initApp app = (tr, .ok (c, n)))
    (h6 : app.GetServerConf c = .error p) :
    runStart app = (tr ++ [Ev.getServerConf c], StartResult.panicked p) := by
  unfold runStart
  rw [hinit]
  simp only [h6]

theorem runStart_noPorts_eq {Config : Type} {app : GappM Config} {c : Config}
    {r : Router} {mws : List NegroniHandler} {sc : ServerConfig}
    (h1 : app.LoadConfig = .ok c) (h2 : app.ConfigureLogging c = .ok ())
    (h3 : app.InitResources c = .ok ())
    (h4 : app.ConfigureRoutes muxNewRouter c = .ok r)
    (h5 : app.SetMiddleware c = .ok mws)
    (h6 : app.GetServerConf c = .ok sc)
    (h7 : app.HandleStart sc.Host sc.Port sc.TLSPort = .ok ())
    (hp : sc.Port ≤ 0 ∧ sc.TLSPort ≤ 0) :
    runStart app =
      ([Ev.loadConfig, Ev.configureLogging c, Ev.initResources c,
        Ev.configureRoutes c, Ev.setMiddleware c, Ev.getServerConf c,
        Ev.handleStart sc.Host sc.Port sc.TLSPort],
        StartResult.panicked noPortsMsg) := by
  unfold runStart
  rw [initApp_ok h1 h2 h3 h4 h5]
  simp only [h6, h7]
  rw [if_pos hp]
  rfl

theorem runStart_listening_eq {Config : Type} {app : GappM Config} {c : Config}
    {r : Router} {mws : List NegroniHandler} {sc : ServerConfig}
    (h1 : app.LoadConfig = .ok c) (h2 : app.ConfigureLogging c = .ok ())
    (h3 : app.InitResources c = .ok ())
    (h4 : app.ConfigureRoutes muxNewRouter c = .ok r)
    (h5 : app.SetMiddleware c = .ok mws)
    (h6 : app.GetServerConf c = .ok sc)
    (h7 : app.HandleStart sc.Host sc.Port sc.TLSPort = .ok ())
    (hp : ¬(sc.Port ≤ 0 ∧ sc.TLSPort ≤ 0)) :
    runStart app =
      ([Ev.loadConfig, Ev.configureLogging c, Ev.initResources c,
        Ev.configureRoutes c, Ev.setMiddleware c, Ev.getServerConf c,
        Ev.handleStart sc.Host sc.Port sc.TLSPort]
        ++ (listenersOf sc ⟨mws, some r⟩).map
            (fun l => Ev.listenerStarted l.1 l.2.1 l.2.2),
        StartResult.listening sc ⟨mws, some r⟩ (listenersOf sc ⟨mws, some r⟩)) := by
  unfold runStart
  rw [initApp_ok h1 h2 h3 h4 h5]
  simp only [h6, h7]
  rw [if_neg hp]
  rfl

theorem run_of_runStart_panicked {Config : Type} {app : GappM Config}
    {tr : List (Ev Config)} {p : String}
    (h : runStart app = (tr, StartResult.panicked p)) :
    ∀ o, Run app o → o = RunObs.panicked tr p := by
  intro o ho
  unfold Run at ho
  rw [h] at ho
  exact ho

theorem initApp_fst_no_stopped {Config : Type} (app : GappM Config) :
    (initApp app).1.countP isStoppedEv = 0 := by
  unfold initApp
  repeat' split
  all_goals simp [isStoppedEv]

theorem initApp_fst_no_started {Config : Type} (app : GappM Config) :
    ∀ (i : Nat) (srv : Server) (tf : Option (String × String)),
      Ev.listenerStarted i srv tf ∉ (initApp app).1 := by
  unfold initApp
  repeat' split
  all_goals intro i srv tf hm
  all_goals simp at hm

theorem runStart_trace_no_stopped {Config : Type} (app : GappM Config) :
    (runStart app).1.countP isStoppedEv = 0 := by
  have hi := initApp_fst_no_stopped app
  unfold runStart
  split
  · rename_i tr p heq
    rw [heq] at hi
    simpa using hi
  · rename_i tr config n heq
    rw [heq] at hi
    simp only at hi
    repeat' split
    all_goals
      simp [isStoppedEv, List.countP_append, List.countP_map, List.countP_cons,
        Function.comp_def, hi, List.countP_eq_zero]

theorem runStart_started_mem {Config : Type} {app : GappM Config}
    {tr : List (Ev Config)} {sc : ServerConfig} {n : Negroni}
    {ls : List (Nat × Server × Option (String × String))}
    (h : runStart app = (tr, StartResult.listening sc n ls)) :
    ∀ (i : Nat) (srv : Server) (tf : Option (String × String)),
      Ev.listenerStarted i srv tf ∈ tr → i ∈ ls.map Prod.fst := by
  have hnost := initApp_fst_no_started app
  unfold runStart at h
  split at h
  · simp at h
  · rename_i tr0 config n0 heq
    rw [heq] at hnost
    simp only at hnost
    split at h
    · simp at h
    · split at h
      · simp at h
      · split at h
        · simp at h
        · injection h with htr hres
          injection hres with hsc hn hls
          subst htr hls
          intro i srv tf hm
          rcases List.mem_append.mp hm with hin | hin
          · rcases List.mem_append.mp hin with hin2 | hin2
            · exact absurd hin2 (hnost i srv tf)
            · simp at hin2
          · rcases List.mem_map.mp hin with ⟨l, hl, heq2⟩
            injection heq2 with hieq _ _
            subst hieq
            exact List.mem_map_of_mem Prod.fst hl

theorem isConcEv_not_started {Config : Type} {i : Nat} {srv : Server}
    {tf : Option (String × String)}
    (h : isConcEv (Ev.listenerStarted i srv tf : Ev Config)) : False := by
  rcases h with ⟨j, hj⟩ | hj <;> cases hj

theorem concInv_init {Config : Type}
    (ls : List (Nat × Server × Option (String × String))) :
    ConcInv (ls.map Prod.fst) (@initConc Config ls) := by
  refine ⟨?_, Or.inl ⟨rfl, ?_, fun i hi => Or.inl hi⟩⟩
  · intro e he
    simp [initConc] at he
  · simp [initConc]

theorem concInv_step {Config : Type} {R : List Nat} {s s' : ConcState Config}
    (hstep : ConcStep s s') (hinv : ConcInv R s) : ConcInv R s' := by
  obtain ⟨hconc, hI⟩ := hinv
  cases hstep with
  | listenerExit i hi =>
    refine ⟨?_, ?_⟩
    · intro e he
      rcases List.mem_append.mp he with he | he
      · exact hconc e he
      · simp at he
        subst he
        exact Or.inl ⟨i, rfl⟩
    · rcases hI with ⟨hf, hcnt, hrun⟩ | ⟨_, hnil, _⟩
      · refine Or.inl ⟨hf, ?_, ?_⟩
        · simp [List.countP_append, hcnt, isStoppedEv]
        · intro j hj
          rcases hrun j hj with hj2 | hj2
          · by_cases hij : j = i
            · subst hij
              exact Or.inr (List.mem_append_right _ (by simp))
            · exact Or.inl ((List.mem_erase_of_ne hij).mpr hj2)
          · exact Or.inr (List.mem_append_left _ hj2)
      · rw [hnil] at hi
        cases hi
  | waitDone h h2 =>
    rcases hI with ⟨_, hcnt, hrun⟩ | ⟨hT, _, _⟩
    · refine ⟨?_, Or.inr ⟨rfl, rfl, s.trace, rfl, hcnt, ?_⟩⟩
      · intro e he
        rcases List.mem_append.mp he with he | he
        · exact hconc e he
        · simp at he
          subst he
          exact Or.inr rfl
      · intro i hi
        rcases hrun i hi with hj | hj
        · rw [h] at hj
          cases hj
        · exact hj
    · rw [hT] at h2
      cases h2

theorem concInv_reach {Config : Type} {R : List Nat} {s s' : ConcState Config}
    (h : Relation.ReflTransGen ConcStep s s') (hinv : ConcInv R s) :
    ConcInv R s' := by
  induction h with
  | refl => exact hinv
  | tail _ hstep ih => exact concInv_step hstep ih

/-! ## Claim theorems -/

/-- C3: for every run of `Run` that completes, `HandleStopped` is invoked
exactly once, and only after every listener goroutine that was started has
fully terminated: the full trace ends with the single `handleStopped` event,
and for every started listener goroutine the exit event of that goroutine
occurs before it. -/
theorem run_handleStopped_once_after_listeners {Config : Type}
    (app : GappM Config) (full : List (Ev Config))
    (h : Run app (RunObs.completed full)) :
    full.countP isStoppedEv = 1 ∧
    ∃ t, full = t ++ [Ev.handleStopped] ∧ t.countP isStoppedEv = 0 ∧
      ∀ (i : Nat) (srv : Server) (tf : Option (String × String)),
        Ev.listenerStarted i srv tf ∈ t → Ev.listenerExited i ∈ t := by
  have hcnt := runStart_trace_no_stopped app
  unfold Run at h
  split at h
  · simp at h
  · rename_i tr sc n ls heq
    rw [heq] at hcnt
    have hcnt0 : tr.countP isStoppedEv = 0 := hcnt
    obtain ⟨s, hreach, hstop, heq2⟩ := h
    injection heq2 with hfull
    subst hfull
    obtain ⟨hconc, hI⟩ := concInv_reach hreach (@concInv_init Config ls)
    rcases hI with ⟨hf, _, _⟩ | ⟨_, _, t, htr, hcntT, hexit⟩
    · rw [hstop] at hf
      cases hf
    · have hstarted := runStart_started_mem heq
      refine ⟨?_, tr ++ t, ?_, ?_, ?_⟩
      · rw [htr]
        simp [List.countP_append, hcnt0, hcntT, isStoppedEv]
      · rw [htr, List.append_assoc]
      · simp [List.countP_append, hcnt0, hcntT]
      · intro i srv tf hm
        rcases List.mem_append.mp hm with hin | hin
        · exact List.mem_append_right _ (hexit i (hstarted i srv tf hin))
        · exfalso
          have h1 : Ev.listenerStarted i srv tf ∈ s.trace := by
            rw [htr]
            exact List.mem_append_left _ hin
          exact isConcEv_not_started (hconc _ h1)

/-- Witness for C3: a concrete completed run of `Run (okApp confHttp)` with
one plain listener, evaluated on the resulting full trace. -/
theorem run_handleStopped_once_after_listeners_witness :
    fullW.countP isStoppedEv = 1 ∧
    ∃ t, fullW = t ++ [Ev.handleStopped] ∧ t.countP isStoppedEv = 0 ∧
      ∀ (i : Nat) (srv : Server) (tf : Option (String × String)),
        Ev.listenerStarted i srv tf ∈ t → Ev.listenerExited i ∈ t := by
  have h1 : runStart (okApp confHttp)
      = (trW, StartResult.listening confHttp nW [(0, srvW, none)]) := rfl
  have s1 : ConcStep (⟨[0], false, []⟩ : ConcState Nat)
      ⟨[], false, [Ev.listenerExited 0]⟩ :=
    ConcStep.listenerExit ⟨[0], false, []⟩ 0 (by simp)
  have s2 : ConcStep (⟨[], false, [Ev.listenerExited 0]⟩ : ConcState Nat)
      ⟨[], true, [Ev.listenerExited 0, Ev.handleStopped]⟩ :=
    ConcStep.waitDone ⟨[], false, [Ev.listenerExited 0]⟩ rfl rfl
  have hrun : Run (okApp confHttp) (RunObs.completed fullW) := by
    unfold Run
    rw [h1]
    exact ⟨⟨[], true, [Ev.listenerExited 0, Ev.handleStopped]⟩,
      Relation.ReflTransGen.tail (Relation.ReflTransGen.single s1) s2, rfl, rfl⟩
  exact run_handleStopped_once_after_listeners (okApp confHttp) fullW hrun

/-- C1 counterexample: with a non-nil recovery callback, on a request whose
handling raises no fault at all (the next handler returns normally), the
callback is nevertheless invoked — the deferred call runs on every exit from
the frame — refuting that the callback is invoked only on an unrecovered
fault. -/
theorem recovery_callback_invoked_without_fault :
    RecEv.recoverFuncCall 7 9 none
        ∈ (recoveryServeHTTP (some ⟨true⟩) 7 9 (.ok ())).1 ∧
    (recoveryServeHTTP (some ⟨true⟩) 7 9 (.ok ())).2 = .ok () := by
  constructor
  · simp [recoveryServeHTTP]
  · rfl

/-- C1 (amended): with a non-nil recovery callback, the callback is invoked
with the response writer and request as a deferred call on every completion
of the next handler, normal or panicking; on a panic it is invoked before the
panic propagates out of the frame, and the middleware completes normally
exactly when the callback itself recovers the panic, the panic propagating
otherwise; with a nil callback the middleware forwards the outcome of the
next handler unchanged, so faults propagate unhandled. -/
theorem recovery_callback_deferred_semantics :
    ∀ (f : RecoveryCallback) (rw r : Nat) (p : String)
      (next : Except String Unit),
      recoveryServeHTTP (some f) rw r (.ok ())
        = ([RecEv.nextCall rw r, RecEv.recoverFuncCall rw r none], .ok ()) ∧
      recoveryServeHTTP (some f) rw r (.error p)
        = ([RecEv.nextCall rw r, RecEv.recoverFuncCall rw r (some p)],
            if f.callsRecover then .ok () else .error p) ∧
      recoveryServeHTTP none rw r next = ([RecEv.nextCall rw r], next) :=
  fun _ _ _ _ _ => ⟨rfl, rfl, rfl⟩

/-- C5: for every request handled by the logging middleware with a non-nil
post-call callback and a normally returning next handler, the post-call
callback is invoked exactly once, with the status the response-writer
abstraction exposes when it does (`rwStatus = some s` reports exactly `s`)
and with status 0 when it does not (`rwStatus = none`), never any other
status. -/
theorem logging_status_best_effort :
    ∀ (hasPre : Bool) (method path : String) (rwStatus : Option Int)
      (t0 t1 : Int),
      (loggingServeHTTP hasPre true method path rwStatus t0 t1
          (.ok ())).1.filter isPostEv
        = [LogEv.postLog method path (rwStatus.getD 0) (t1 - t0)] := by
  intro hasPre method path rwStatus t0 t1
  cases hasPre <;> cases rwStatus <;> simp [loggingServeHTTP, isPostEv]

/-- C6: for every request handled by the logging middleware whose next
handler returns, the trace is: the pre-call callback (with method, path and
the start time taken at entry, before the pre-call callback) when present,
strictly before the next handler; then the next handler; then the post-call
callback (with method, path, status and elapsed duration) when present,
strictly after the next handler returns; and with a monotonic clock
(`t0 ≤ t1`) the reported elapsed duration is nonnegative. -/
theorem logging_pre_post_ordering :
    ∀ (hasPre hasPost : Bool) (method path : String) (rwStatus : Option Int)
      (t0 t1 : Int), t0 ≤ t1 →
      ∃ pre post,
        (loggingServeHTTP hasPre hasPost method path rwStatus t0 t1
            (.ok ())).1 = pre ++ [LogEv.nextCall] ++ post ∧
        pre = (if hasPre then [LogEv.preLog method path t0] else []) ∧
        post = (if hasPost then
            [LogEv.postLog method path (rwStatus.getD 0) (t1 - t0)] else []) ∧
        0 ≤ t1 - t0 := by
  intro hasPre hasPost method path rwStatus t0 t1 ht
  refine ⟨_, _, ?_, rfl, rfl, by omega⟩
  cases hasPre <;> cases hasPost <;> cases rwStatus <;> simp [loggingServeHTTP]

/-- Witness for C6: a concrete request with both callbacks present, a status
of 200 exposed, and the clock moving from 0 to 5. -/
theorem logging_pre_post_ordering_witness :
    (0 : Int) ≤ 5 ∧
    ∃ pre post,
      (loggingServeHTTP true true "GET" "/x" (some 200) 0 5 (.ok ())).1
        = pre ++ [LogEv.nextCall] ++ post ∧
      pre = (if true then [LogEv.preLog "GET" "/x" 0] else []) ∧
      post = (if true then
          [LogEv.postLog "GET" "/x" ((some (200 : Int)).getD 0) (5 - 0)] else []) ∧
      (0 : Int) ≤ 5 - 0 :=
  ⟨by norm_num,
    logging_pre_post_ordering true true "GET" "/x" (some 200) 0 5 (by norm_num)⟩

/-- C10: the package-level variable `doRunFunc` is never read by `Run`,
`initApp` or any middleware, so any two values of the package-variable state
yield identical observable behaviour of the package. -/
theorem doRunFunc_unused_no_effect :
    ∀ (v1 v2 : PackageVars) (Config : Type) (app : GappM Config)
      (o : RunObs Config) (recoverFunc : Option RecoveryCallback) (rw r : Nat)
      (next : Except String Unit) (hasPre hasPost : Bool)
      (method path : String) (rwStatus : Option Int) (t0 t1 : Int),
      (RunWithVars v1 app o ↔ RunWithVars v2 app o) ∧
      initAppWithVars v1 app = initAppWithVars v2 app ∧
      recoveryServeHTTPWithVars v1 recoverFunc rw r next
        = recoveryServeHTTPWithVars v2 recoverFunc rw r next ∧
      loggingServeHTTPWithVars v1 hasPre hasPost method path rwStatus t0 t1 next
        = loggingServeHTTPWithVars v2 hasPre hasPost method path rwStatus t0 t1
            next := by
  intros
  exact ⟨Iff.rfl, rfl, rfl, rfl⟩

/-- C2: when the app's callbacks return normally and the obtained
`ServerConfig` has `Port ≤ 0` and `TLSPort ≤ 0`, `Run` panics with the
no-ports message before starting any listener goroutine; `HandleStart` was
still invoked before the abort, and `HandleStopped` is never invoked. -/
theorem run_no_ports_aborts {Config : Type} (app : GappM Config) (c : Config)
    (r : Router) (mws : List NegroniHandler) (sc : ServerConfig)
    (h1 : app.LoadConfig = .ok c) (h2 : app.ConfigureLogging c = .ok ())
    (h3 : app.InitResources c = .ok ())
    (h4 : app.ConfigureRoutes muxNewRouter c = .ok r)
    (h5 : app.SetMiddleware c = .ok mws)
    (h6 : app.GetServerConf c = .ok sc)
    (h7 : app.HandleStart sc.Host sc.Port sc.TLSPort = .ok ())
    (hport : sc.Port ≤ 0) (htls : sc.TLSPort ≤ 0) :
    ∃ tr, runStart app = (tr, StartResult.panicked noPortsMsg) ∧
      tr = [Ev.loadConfig, Ev.configureLogging c, Ev.initResources c,
        Ev.configureRoutes c, Ev.setMiddleware c, Ev.getServerConf c,
        Ev.handleStart sc.Host sc.Port sc.TLSPort] ∧
      Ev.handleStart sc.Host sc.Port sc.TLSPort ∈ tr ∧
      noListenerStartedIn tr ∧
      Ev.handleStopped ∉ tr ∧
      ∀ o, Run app o → o = RunObs.panicked tr noPortsMsg := by
  have heq := runStart_noPorts_eq h1 h2 h3 h4 h5 h6 h7 ⟨hport, htls⟩
  refine ⟨_, heq, rfl, ?_, ?_, ?_, run_of_runStart_panicked heq⟩
  · simp
  · intro i srv tf hm
    simp at hm
  · simp

/-- Witness for C2: the concrete app `okApp confNoPorts`, whose server config
has port 0 and TLS port 0. -/
theorem run_no_ports_aborts_witness :
    ∃ tr, runStart (okApp confNoPorts) = (tr, StartResult.panicked noPortsMsg) ∧
      tr = [Ev.loadConfig, Ev.configureLogging 42, Ev.initResources 42,
        Ev.configureRoutes 42, Ev.setMiddleware 42, Ev.getServerConf 42,
        Ev.handleStart "localhost" 0 0] ∧
      Ev.handleStart "localhost" 0 0 ∈ tr ∧
      noListenerStartedIn tr ∧
      Ev.handleStopped ∉ tr ∧
      ∀ o, Run (okApp confNoPorts) o → o = RunObs.panicked tr noPortsMsg :=
  run_no_ports_aborts (okApp confNoPorts) 42 ⟨[⟨"/", 1⟩]⟩ [10, 20] confNoPorts
    rfl rfl rfl rfl rfl rfl rfl (by decide) (by decide)

/-- C4: when the app's callbacks return normally, the lifecycle callbacks
`LoadConfig`, `ConfigureLogging`, `InitResources`, `ConfigureRoutes`,
`SetMiddleware`, `GetServerConf` and `HandleStart` are each invoked exactly
once, in exactly that order, all before any listener goroutine is started,
and the four configuration callbacks each receive the value `LoadConfig`
returned. -/
theorem run_lifecycle_order {Config : Type} (app : GappM Config) (c : Config)
    (r : Router) (mws : List NegroniHandler) (sc : ServerConfig)
    (h1 : app.LoadConfig = .ok c) (h2 : app.ConfigureLogging c = .ok ())
    (h3 : app.InitResources c = .ok ())
    (h4 : app.ConfigureRoutes muxNewRouter c = .ok r)
    (h5 : app.SetMiddleware c = .ok mws)
    (h6 : app.GetServerConf c = .ok sc)
    (h7 : app.HandleStart sc.Host sc.Port sc.TLSPort = .ok ()) :
    (runStart app).1 =
      [Ev.loadConfig, Ev.configureLogging c, Ev.initResources c,
        Ev.configureRoutes c, Ev.setMiddleware c, Ev.getServerConf c,
        Ev.handleStart sc.Host sc.Port sc.TLSPort]
      ++ (listenersOf sc ⟨mws, some r⟩).map
          (fun l => Ev.listenerStarted l.1 l.2.1 l.2.2) := by
  by_cases hp : sc.Port ≤ 0 ∧ sc.TLSPort ≤ 0
  · obtain ⟨hp1, hp2⟩ := hp
    rw [runStart_noPorts_eq h1 h2 h3 h4 h5 h6 h7 ⟨hp1, hp2⟩]
    have hls : listenersOf sc (⟨mws, some r⟩ : Negroni) = [] := by
      unfold listenersOf
      rw [if_neg (not_lt.mpr hp1), if_neg (not_lt.mpr hp2)]
      rfl
    rw [hls]
    rfl
  · rw [runStart_listening_eq h1 h2 h3 h4 h5 h6 h7 hp]

/-- Witness for C4: the concrete app `okApp confBoth`. -/
theorem run_lifecycle_order_witness :
    (runStart (okApp confBoth)).1 =
      [Ev.loadConfig, Ev.configureLogging 42, Ev.initResources 42,
        Ev.configureRoutes 42, Ev.setMiddleware 42, Ev.getServerConf 42,
        Ev.handleStart "localhost" 8080 8443]
      ++ (listenersOf confBoth ⟨[10, 20], some ⟨[⟨"/", 1⟩]⟩⟩).map
          (fun l => Ev.listenerStarted l.1 l.2.1 l.2.2) :=
  run_lifecycle_order (okApp confBoth) 42 ⟨[⟨"/", 1⟩]⟩ [10, 20] confBoth
    rfl rfl rfl rfl rfl rfl rfl

/-- C7: when the app's callbacks return normally and at least one port is
positive, the composed handler `Run` hands to every listener is built from
the middleware list returned by `SetMiddleware` wrapping the configured
router, with the first supplied unit outermost and the router innermost,
before any listener goroutine starts, and every started listener uses that
one handler. -/
theorem middleware_chain_built_once {Config : Type} (app : GappM Config)
    (c : Config) (r : Router) (mws : List NegroniHandler) (sc : ServerConfig)
    (h1 : app.LoadConfig = .ok c) (h2 : app.ConfigureLogging c = .ok ())
    (h3 : app.InitResources c = .ok ())
    (h4 : app.ConfigureRoutes muxNewRouter c = .ok r)
    (h5 : app.SetMiddleware c = .ok mws)
    (h6 : app.GetServerConf c = .ok sc)
    (h7 : app.HandleStart sc.Host sc.Port sc.TLSPort = .ok ())
    (hp : ¬(sc.Port ≤ 0 ∧ sc.TLSPort ≤ 0)) :
    ∃ tr, runStart app
        = (tr, StartResult.listening sc ⟨mws, some r⟩
            (listenersOf sc ⟨mws, some r⟩)) ∧
      Negroni.compose ⟨mws, some r⟩
        = mws.foldr (fun u inner => ComposedHandler.wrap u inner)
            (ComposedHandler.routerH r) ∧
      (∀ (u : NegroniHandler) (us : List NegroniHandler) (rt : Router),
        Negroni.compose ⟨u :: us, some rt⟩
          = ComposedHandler.wrap u (Negroni.compose ⟨us, some rt⟩)) ∧
      (∀ l ∈ listenersOf sc (⟨mws, some r⟩ : Negroni),
        l.2.1.Handler = (⟨mws, some r⟩ : Negroni)) := by
  refine ⟨_, runStart_listening_eq h1 h2 h3 h4 h5 h6 h7 hp, rfl,
    fun u us rt => rfl, ?_⟩
  intro l hl
  unfold listenersOf at hl
  rcases List.mem_append.mp hl with hin | hin
  · split at hin
    · simp at hin
      subst hin
      rfl
    · simp at hin
  · split at hin
    · simp at hin
      subst hin
      rfl
    · simp at hin

/-- Witness for C7: the concrete app `okApp confBoth`. -/
theorem middleware_chain_built_once_witness :
    ∃ tr, runStart (okApp confBoth)
        = (tr, StartResult.listening confBoth ⟨[10, 20], some ⟨[⟨"/", 1⟩]⟩⟩
            (listenersOf confBoth ⟨[10, 20], some ⟨[⟨"/", 1⟩]⟩⟩)) ∧
      Negroni.compose ⟨[10, 20], some ⟨[⟨"/", 1⟩]⟩⟩
        = ([10, 20] : List NegroniHandler).foldr
            (fun u inner => ComposedHandler.wrap u inner)
            (ComposedHandler.routerH ⟨[⟨"/", 1⟩]⟩) ∧
      (∀ (u : NegroniHandler) (us : List NegroniHandler) (rt : Router),
        Negroni.compose ⟨u :: us, some rt⟩
          = ComposedHandler.wrap u (Negroni.compose ⟨us, some rt⟩)) ∧
      (∀ l ∈ listenersOf confBoth (⟨[10, 20], some ⟨[⟨"/", 1⟩]⟩⟩ : Negroni),
        l.2.1.Handler = (⟨[10, 20], some ⟨[⟨"/", 1⟩]⟩⟩ : Negroni)) :=
  middleware_chain_built_once (okApp confBoth) 42 ⟨[⟨"/", 1⟩]⟩ [10, 20]
    confBoth rfl rfl rfl rfl rfl rfl rfl (by decide)

/-- C8: when the app's callbacks return normally and at least one port is
positive, exactly one listener goroutine is started per positive port: the
plain-HTTP one (id 0) on `Host:Port` iff `Port > 0` and without TLS files,
the TLS one (id 1) on `Host:TLSPort` iff `TLSPort > 0` and with
`TLSCertFile`/`TLSPrivateKeyFile`; every started listener uses the one
shared middleware-wrapped handler and the configured read, write and
graceful timeouts. -/
theorem run_listeners_per_positive_port {Config : Type} (app : GappM Config)
    (c : Config) (r : Router) (mws : List NegroniHandler) (sc : ServerConfig)
    (h1 : app.LoadConfig = .ok c) (h2 : app.ConfigureLogging c = .ok ())
    (h3 : app.InitResources c = .ok ())
    (h4 : app.ConfigureRoutes muxNewRouter c = .ok r)
    (h5 : app.SetMiddleware c = .ok mws)
    (h6 : app.GetServerConf c = .ok sc)
    (h7 : app.HandleStart sc.Host sc.Port sc.TLSPort = .ok ())
    (hpos : 0 < sc.Port ∨ 0 < sc.TLSPort) :
    ∃ tr ls, runStart app = (tr, StartResult.listening sc ⟨mws, some r⟩ ls) ∧
      ls = listenersOf sc ⟨mws, some r⟩ ∧
      ls.length = (if 0 < sc.Port then 1 else 0)
        + (if 0 < sc.TLSPort then 1 else 0) ∧
      (∀ (srv : Server) (tf : Option (String × String)),
        (0, srv, tf) ∈ ls ↔
          (0 < sc.Port ∧
            srv = ⟨sc.GracefulTimeout, sc.Host ++ ":" ++ itoa sc.Port,
              ⟨mws, some r⟩, sc.WriteTimeout, sc.ReadTimeout⟩ ∧ tf = none)) ∧
      (∀ (srv : Server) (tf : Option (String × String)),
        (1, srv, tf) ∈ ls ↔
          (0 < sc.TLSPort ∧
            srv = ⟨sc.GracefulTimeout, sc.Host ++ ":" ++ itoa sc.TLSPort,
              ⟨mws, some r⟩, sc.WriteTimeout, sc.ReadTimeout⟩ ∧
            tf = some (sc.TLSCertFile, sc.TLSPrivateKeyFile))) ∧
      (∀ l ∈ ls, (l.1 = 0 ∨ l.1 = 1) ∧
        l.2.1.Handler = (⟨mws, some r⟩ : Negroni) ∧
        l.2.1.ReadTimeout = sc.ReadTimeout ∧
        l.2.1.WriteTimeout = sc.WriteTimeout ∧
        l.2.1.Timeout = sc.GracefulTimeout) := by
  have hp : ¬(sc.Port ≤ 0 ∧ sc.TLSPort ≤ 0) := by omega
  refine ⟨_, _, runStart_listening_eq h1 h2 h3 h4 h5 h6 h7 hp, rfl, ?_, ?_, ?_, ?_⟩
  · by_cases hA : 0 < sc.Port <;> by_cases hB : 0 < sc.TLSPort <;>
      simp [listenersOf, hA, hB]
  · intro srv tf
    by_cases hA : 0 < sc.Port <;> by_cases hB : 0 < sc.TLSPort <;>
      simp [listenersOf, hA, hB]
  · intro srv tf
    by_cases hA : 0 < sc.Port <;> by_cases hB : 0 < sc.TLSPort <;>
      simp [listenersOf, hA, hB]
  · intro l hl
    unfold listenersOf at hl
    rcases List.mem_append.mp hl with hin | hin
    · split at hin
      · simp at hin
        subst hin
        exact ⟨Or.inl rfl, rfl, rfl, rfl, rfl⟩
      · simp at hin
    · split at hin
      · simp at hin
        subst hin
        exact ⟨Or.inr rfl, rfl, rfl, rfl, rfl⟩
      · simp at hin

/-- Witness for C8: the concrete app `okApp confHttp`, whose server config
has a positive plain port and TLS port 0. -/
theorem run_listeners_per_positive_port_witness :
    ∃ tr ls, runStart (okApp confHttp)
        = (tr, StartResult.listening confHttp ⟨[10, 20], some ⟨[⟨"/", 1⟩]⟩⟩ ls) ∧
      ls = listenersOf confHttp ⟨[10, 20], some ⟨[⟨"/", 1⟩]⟩⟩ ∧
      ls.length = (if 0 < confHttp.Port then 1 else 0)
        + (if 0 < confHttp.TLSPort then 1 else 0) ∧
      (∀ (srv : Server) (tf : Option (String × String)),
        (0, srv, tf) ∈ ls ↔
          (0 < confHttp.Port ∧
            srv = ⟨confHttp.GracefulTimeout,
              confHttp.Host ++ ":" ++ itoa confHttp.Port,
              ⟨[10, 20], some ⟨[⟨"/", 1⟩]⟩⟩, confHttp.WriteTimeout,
              confHttp.ReadTimeout⟩ ∧ tf = none)) ∧
      (∀ (srv : Server) (tf : Option (String × String)),
        (1, srv, tf) ∈ ls ↔
          (0 < confHttp.TLSPort ∧
            srv = ⟨confHttp.GracefulTimeout,
              confHttp.Host ++ ":" ++ itoa confHttp.TLSPort,
              ⟨[10, 20], some ⟨[⟨"/", 1⟩]⟩⟩, confHttp.WriteTimeout,
              confHttp.ReadTimeout⟩ ∧
            tf = some (confHttp.TLSCertFile, confHttp.TLSPrivateKeyFile))) ∧
      (∀ l ∈ ls, (l.1 = 0 ∨ l.1 = 1) ∧
        l.2.1.Handler = (⟨[10, 20], some ⟨[⟨"/", 1⟩]⟩⟩ : Negroni) ∧
        l.2.1.ReadTimeout = confHttp.ReadTimeout ∧
        l.2.1.WriteTimeout = confHttp.WriteTimeout ∧
        l.2.1.Timeout = confHttp.GracefulTimeout) :=
  run_listeners_per_positive_port (okApp confHttp) 42 ⟨[⟨"/", 1⟩]⟩ [10, 20]
    confHttp rfl rfl rfl rfl rfl rfl rfl (by decide)

/-- C9: a panic raised in any of the lifecycle callbacks `LoadConfig`,
`ConfigureLogging`, `InitResources`, `ConfigureRoutes`, `SetMiddleware` or
`GetServerConf` is not caught or wrapped by the orchestrator: it propagates
out of `Run` with the same value, no subsequent lifecycle callback is
invoked, and no listener goroutine is started. -/
theorem callback_faults_propagate :
    ∀ (Config : Type) (app : GappM Config) (c : Config) (r : Router)
      (mws : List NegroniHandler) (p : String),
      (app.LoadConfig = .error p →
        ∃ tr, runStart app = (tr, StartResult.panicked p) ∧
          tr = [Ev.loadConfig] ∧ noListenerStartedIn tr ∧
          ∀ o, Run app o → o = RunObs.panicked tr p) ∧
      (app.LoadConfig = .ok c → app.ConfigureLogging c = .error p →
        ∃ tr, runStart app = (tr, StartResult.panicked p) ∧
          tr = [Ev.loadConfig, Ev.configureLogging c] ∧
          noListenerStartedIn tr ∧
          ∀ o, Run app o → o = RunObs.panicked tr p) ∧
      (app.LoadConfig = .ok c → app.ConfigureLogging c = .ok () →
        app.InitResources c = .error p →
        ∃ tr, runStart app = (tr, StartResult.panicked p) ∧
          tr = [Ev.loadConfig, Ev.configureLogging c, Ev.initResources c] ∧
          noListenerStartedIn tr ∧
          ∀ o, Run app o → o = RunObs.panicked tr p) ∧
      (app.LoadConfig = .ok c → app.ConfigureLogging c = .ok () →
        app.InitResources c = .ok () →
        app.ConfigureRoutes muxNewRouter c = .error p →
        ∃ tr, runStart app = (tr, StartResult.panicked p) ∧
          tr = [Ev.loadConfig, Ev.configureLogging c, Ev.initResources c,
            Ev.configureRoutes c] ∧
          noListenerStartedIn tr ∧
          ∀ o, Run app o → o = RunObs.panicked tr p) ∧
      (app.LoadConfig = .ok c → app.ConfigureLogging c = .ok () →
        app.InitResources c = .ok () →
        app.ConfigureRoutes muxNewRouter c = .ok r →
        app.SetMiddleware c = .error p →
        ∃ tr, runStart app = (tr, StartResult.panicked p) ∧
          tr = [Ev.loadConfig, Ev.configureLogging c, Ev.initResources c,
            Ev.configureRoutes c, Ev.setMiddleware c] ∧
          noListenerStartedIn tr ∧
          ∀ o, Run app o → o = RunObs.panicked tr p) ∧
      (app.LoadConfig = .ok c → app.ConfigureLogging c = .ok () →
        app.InitResources c = .ok () →
        app.ConfigureRoutes muxNewRouter c = .ok r →
        app.SetMiddleware c = .ok mws →
        app.GetServerConf c = .error p →
        ∃ tr, runStart app = (tr, StartResult.panicked p) ∧
          tr = [Ev.loadConfig, Ev.configureLogging c, Ev.initResources c,
            Ev.configureRoutes c, Ev.setMiddleware c, Ev.getServerConf c] ∧
          noListenerStartedIn tr ∧
          ∀ o, Run app o → o = RunObs.panicked tr p) := by
  intro Config app c r mws p
  refine ⟨?_, ?_, ?_, ?_, ?_, ?_⟩
  · intro e1
    have hi : initApp app = ([Ev.loadConfig], .error p) := by
      simp only [initApp, e1]
    exact ⟨_, runStart_of_initApp_err hi, rfl,
      fun i srv tf hm => by simp at hm,
      run_of_runStart_panicked (runStart_of_initApp_err hi)⟩
  · intro k1 e2
    have hi : initApp app
        = ([Ev.loadConfig, Ev.configureLogging c], .error p) := by
      simp only [initApp, k1, e2]
    exact ⟨_, runStart_of_initApp_err hi, rfl,
      fun i srv tf hm => by simp at hm,
      run_of_runStart_panicked (runStart_of_initApp_err hi)⟩
  · intro k1 k2 e3
    have hi : initApp app
        = ([Ev.loadConfig, Ev.configureLogging c, Ev.initResources c],
            .error p) := by
      simp only [initApp, k1, k2, e3]
    exact ⟨_, runStart_of_initApp_err hi, rfl,
      fun i srv tf hm => by simp at hm,
      run_of_runStart_panicked (runStart_of_initApp_err hi)⟩
  · intro k1 k2 k3 e4
    have hi : initApp app
        = ([Ev.loadConfig, Ev.configureLogging c, Ev.initResources c,
            Ev.configureRoutes c], .error p) := by
      simp only [initApp, k1, k2, k3, e4]
    exact ⟨_, runStart_of_initApp_err hi, rfl,
      fun i srv tf hm => by simp at hm,
      run_of_runStart_panicked (runStart_of_initApp_err hi)⟩
  · intro k1 k2 k3 k4 e5
    have hi : initApp app
        = ([Ev.loadConfig, Ev.configureLogging c, Ev.initResources c,
            Ev.configureRoutes c, Ev.setMiddleware c], .error p) := by
      simp only [initApp, k1, k2, k3, k4, e5]
    exact ⟨_, runStart_of_initApp_err hi, rfl,
      fun i srv tf hm => by simp at hm,
      run_of_runStart_panicked (runStart_of_initApp_err hi)⟩
  · intro k1 k2 k3 k4 k5 e6
    have heq := runStart_getServerConf_err (initApp_ok k1 k2 k3 k4 k5) e6
    exact ⟨_, heq, rfl,
      fun i srv tf hm => by simp at hm,
      run_of_runStart_panicked heq⟩

/-- Witness for C9: six concrete apps, each panicking with value "boom" in a
different lifecycle callback. -/
theorem callback_faults_propagate_witness :
    (∃ tr, runStart errAppLoad = (tr, StartResult.panicked "boom") ∧
      tr = [Ev.loadConfig] ∧ noListenerStartedIn tr ∧
      ∀ o, Run errAppLoad o → o = RunObs.panicked tr "boom") ∧
    (∃ tr, runStart errAppCL = (tr, StartResult.panicked "boom") ∧
      tr = [Ev.loadConfig, Ev.configureLogging 42] ∧ noListenerStartedIn tr ∧
      ∀ o, Run errAppCL o → o = RunObs.panicked tr "boom") ∧
    (∃ tr, runStart errAppIR = (tr, StartResult.panicked "boom") ∧
      tr = [Ev.loadConfig, Ev.configureLogging 42, Ev.initResources 42] ∧
      noListenerStartedIn tr ∧
      ∀ o, Run errAppIR o → o = RunObs.panicked tr "boom") ∧
    (∃ tr, runStart errAppCR = (tr, StartResult.panicked "boom") ∧
      tr = [Ev.loadConfig, Ev.configureLogging 42, Ev.initResources 42,
        Ev.configureRoutes 42] ∧
      noListenerStartedIn tr ∧
      ∀ o, Run errAppCR o → o = RunObs.panicked tr "boom") ∧
    (∃ tr, runStart errAppSM = (tr, StartResult.panicked "boom") ∧
      tr = [Ev.loadConfig, Ev.configureLogging 42, Ev.initResources 42,
        Ev.configureRoutes 42, Ev.setMiddleware 42] ∧
      noListenerStartedIn tr ∧
      ∀ o, Run errAppSM o → o = RunObs.panicked tr "boom") ∧
    (∃ tr, runStart errAppGSC = (tr, StartResult.panicked "boom") ∧
      tr = [Ev.loadConfig, Ev.configureLogging 42, Ev.initResources 42,
        Ev.configureRoutes 42, Ev.setMiddleware 42, Ev.getServerConf 42] ∧
      noListenerStartedIn tr ∧
      ∀ o, Run errAppGSC o → o = RunObs.panicked tr "boom") :=
  ⟨(callback_faults_propagate Nat errAppLoad 42 ⟨[]⟩ [] "boom").1 rfl,
    (callback_faults_propagate Nat errAppCL 42 ⟨[]⟩ [] "boom").2.1 rfl rfl,
    (callback_faults_propagate Nat errAppIR 42 ⟨[]⟩ [] "boom").2.2.1 rfl rfl rfl,
    (callback_faults_propagate Nat errAppCR 42 ⟨[]⟩ [] "boom").2.2.2.1
      rfl rfl rfl rfl,
    (callback_faults_propagate Nat errAppSM 42 ⟨[⟨"/", 1⟩]⟩ [] "boom").2.2.2.2.1
      rfl rfl rfl rfl rfl,
    (callback_faults_propagate Nat errAppGSC 42 ⟨[⟨"/", 1⟩]⟩ [10, 20]
      "boom").2.2.2.2.2 rfl rfl rfl rfl rfl rfl⟩

end Gapp
